import Mathlib

/-!
Verification development for the pebble predictor (src/PP.py).

The single entry point pebble_predictor is embedded shallowly over the real
numbers: numpy arrays become functions from the natural index to the reals
together with explicit lengths, elementwise numpy arithmetic becomes real
arithmetic, and the time-marching loop becomes structural recursion that
produces, for each time index, the row triple (Stokes number, flux, mass
budget). All formulas are transcribed line by line from src/PP.py.
-/

noncomputable section

namespace PP

open Real

/-- Boltzmann constant in CGS units, the value of astropy c.k_B.cgs.value. -/
def k_b : ℝ := 1.380649e-16

/-- Proton mass in CGS units, the value of astropy c.m_p.cgs.value. -/
def m_p : ℝ := 1.67262192369e-24

/-- Gravitational constant in CGS units, the value of astropy c.G.cgs.value. -/
def Grav : ℝ := 6.6743e-8

/-- Astronomical unit in CGS units, the value of astropy c.au.cgs.value. -/
def au : ℝ := 1.495978707e13

/-- Unused constant kept from src/PP.py line 35. -/
def AH2 : ℝ := 2e-15

/-- Starting size of dust grains in cm (src/PP.py line 38). -/
def a0 : ℝ := 1e-4

/-- Factor by which growth needs to be faster than drift (src/PP.py line 39). -/
def fff : ℝ := 30

/-- Input record of pebble_predictor: the radial grid (length N), the time grid
(length M), stellar mass, gas and dust surface density profiles, temperature
profile, turbulence alpha, fragmentation velocity and grain bulk density.
Per-radius arrays are modelled as functions on the natural index; only values
at indices below N (below M for the time grid) are meaningful. -/
structure Disk where
  N : ℕ
  M : ℕ
  rgrid : ℕ → ℝ
  tgrid : ℕ → ℝ
  Mstar : ℝ
  SigmaGas : ℕ → ℝ
  SigmaDust : ℕ → ℝ
  T : ℕ → ℝ
  alpha : ℝ
  vfrag : ℝ
  rhop : ℝ

/-- Sound speed, src/PP.py line 40. -/
def cs (d : Disk) (ir : ℕ) : ℝ := Real.sqrt (k_b * d.T ir / (2.3 * m_p))

/-- Keplerian frequency, src/PP.py line 41. -/
def OmegaK (d : Disk) (ir : ℕ) : ℝ := Real.sqrt (Grav * d.Mstar / (d.rgrid ir) ^ 3)

/-- Midplane gas density, src/PP.py line 42. -/
def rhog (d : Disk) (ir : ℕ) : ℝ :=
  d.SigmaGas ir * OmegaK d ir / (Real.sqrt (2 * Real.pi) * cs d ir)

/-- Gas pressure, src/PP.py line 43. -/
def pg (d : Disk) (ir : ℕ) : ℝ := rhog d ir * (cs d ir) ^ 2

/-- Grid cell interfaces, src/PP.py lines 45-48: the inner and outer interfaces
are linear extrapolations, interior interfaces are midpoints of adjacent cell
centers. Indices 0..N model the N+1 entries of the numpy array rInt. -/
def rInt (d : Disk) (i : ℕ) : ℝ :=
  if i = 0 then 1.5 * d.rgrid 0 - 0.5 * d.rgrid 1
  else if i = d.N then 1.5 * d.rgrid (d.N - 1) - 0.5 * d.rgrid (d.N - 2)
  else 0.5 * (d.rgrid i + d.rgrid (i - 1))

/-- Cell widths, src/PP.py line 49. -/
def dr (d : Disk) (i : ℕ) : ℝ := rInt d (i + 1) - rInt d i

/-- Index of the interpolation segment used by np.interp: the largest j at or
below the given bound with xp j at or below x, and 0 when there is none. -/
def segIdx (xp : ℕ → ℝ) (x : ℝ) : ℕ → ℕ
  | 0 => 0
  | k + 1 => if xp (k + 1) ≤ x then k + 1 else segIdx xp x k

/-- Clamped piecewise-linear interpolation with n nodes, the semantics of
np.interp(x, xp, fp) for strictly increasing xp: values are held at the edge
nodes outside the node range and linearly interpolated between adjacent nodes
inside it. -/
def interp (n : ℕ) (xp fp : ℕ → ℝ) (x : ℝ) : ℝ :=
  if x ≤ xp 0 then fp 0
  else if xp (n - 1) ≤ x then fp (n - 1)
  else
    let j := segIdx xp x (n - 2)
    fp j + (fp (j + 1) - fp j) * (x - xp j) / (xp (j + 1) - xp j)

/-- Gas pressure at the interfaces, src/PP.py line 50. -/
def pgInt (d : Disk) (i : ℕ) : ℝ := interp d.N d.rgrid (pg d) (rInt d i)

/-- Pressure gradient parameter, src/PP.py line 51. -/
def eta (d : Disk) (ir : ℕ) : ℝ :=
  (pgInt d (ir + 1) - pgInt d ir) / dr d ir / (2 * rhog d ir * (OmegaK d ir) ^ 2 * d.rgrid ir)

/-- Stokes number limit in the turbulence-induced fragmentation regime,
src/PP.py line 53. -/
def stfrag (d : Disk) (ir : ℕ) : ℝ := 0.37 * d.vfrag ^ 2 / (3 * d.alpha * (cs d ir) ^ 2)

/-- Stokes number limit in the drift-induced fragmentation regime,
src/PP.py line 54. -/
def stdf (d : Disk) (ir : ℕ) : ℝ :=
  0.37 * d.vfrag / (2 * |eta d ir| * OmegaK d ir * d.rgrid ir)

/-- Stokes number of micron-sized monomers, src/PP.py line 55. -/
def st0 (d : Disk) (ir : ℕ) : ℝ := 0.5 * Real.pi * a0 * d.rhop / d.SigmaGas ir

/-- Initial dust to gas ratio, src/PP.py line 63. -/
def Z0 (d : Disk) (ir : ℕ) : ℝ := d.SigmaDust ir / d.SigmaGas ir

/-- Growth timescale, src/PP.py line 64. -/
def tgrowth (d : Disk) (ir : ℕ) : ℝ :=
  1 / ((d.alpha / 1e-4) ^ (0.3333 : ℝ) * Z0 d ir * OmegaK d ir *
    (d.rgrid ir / au) ^ (-(0.3333 : ℝ)))

/-- Initial mass budget outside cell ir, src/PP.py line 66. -/
def massout0 (d : Disk) (ir : ℕ) : ℝ :=
  ∑ j in Finset.Ico ir d.N, 2 * Real.pi * d.rgrid j * dr d j * d.SigmaDust j

/-- Pebble drift velocity law for a particle of Stokes number s,
src/PP.py lines 68 and 80. -/
def vdrift (d : Disk) (ir : ℕ) (s : ℝ) : ℝ :=
  2 * |eta d ir| * OmegaK d ir * d.rgrid ir * s / (1 + s ^ 2)

/-- One row of the evolving state: the Stokes number row, the flux row and the
mass budget row, each indexed by radius. -/
def RowT : Type := (ℕ → ℝ) × (ℕ → ℝ) × (ℕ → ℝ)

/-- The time marching of src/PP.py lines 62-82: row 0 is the initial condition
(monomer Stokes number, uncapped drift flux, initial mass budget) and each
subsequent row applies, in source order, the mass budget update, the dust to
gas estimate, the growth value, the drift-supply limit, the three clamps, the
capped drift velocity and the depletion-scaled flux. -/
def row (d : Disk) : ℕ → RowT
  | 0 =>
    ⟨fun ir => st0 d ir,
     fun ir => 2 * Real.pi * d.rgrid ir * vdrift d ir (st0 d ir) * d.SigmaDust ir,
     fun ir => massout0 d ir⟩
  | it + 1 =>
    let prev := row d it
    let mo : ℕ → ℝ := fun ir => prev.2.2 ir - prev.2.1 ir * (d.tgrid (it + 1) - d.tgrid it)
    let stn : ℕ → ℝ := fun ir =>
      max (min (min (min (stfrag d ir) (stdf d ir))
          (st0 d ir * Real.exp (d.tgrid (it + 1) / tgrowth d ir)))
        (Z0 d ir * (mo ir / massout0 d ir) / |eta d ir| / fff)) (st0 d ir)
    let vvn : ℕ → ℝ := fun ir => min (vdrift d ir (stn ir)) (d.rgrid ir / tgrowth d ir / fff)
    ⟨stn,
     fun ir => 2 * Real.pi * d.rgrid ir * vvn ir * d.SigmaDust ir * (mo ir / massout0 d ir),
     mo⟩

/-- Stokes number field st of src/PP.py, indexed time first. -/
def st (d : Disk) (it ir : ℕ) : ℝ := (row d it).1 ir

/-- Pebble flux field of src/PP.py, indexed time first. -/
def flux (d : Disk) (it ir : ℕ) : ℝ := (row d it).2.1 ir

/-- Mass budget field of src/PP.py, indexed time first. -/
def massout (d : Disk) (it ir : ℕ) : ℝ := (row d it).2.2 ir

/-- The growth-limited Stokes number stini of src/PP.py line 75 at time index
it, using the absolute time on the time grid. -/
def stiniF (d : Disk) (it ir : ℕ) : ℝ := st0 d ir * Real.exp (d.tgrid it / tgrowth d ir)

/-- The drift velocity used at time index it: uncapped at the initial row,
capped by the growth-supply limit at later rows (src/PP.py lines 68, 80-81). -/
def vv (d : Disk) : ℕ → ℕ → ℝ
  | 0, ir => vdrift d ir (st d 0 ir)
  | it + 1, ir => min (vdrift d ir (st d (it + 1) ir)) (d.rgrid ir / tgrowth d ir / fff)

/-- Validity of the inputs at the interface boundary, following section 6 of
the specification: grids strictly increasing with the radial grid positive and
the time grid non-negative, positive scalars and positive per-radius
profiles. -/
structure ValidInput (d : Disk) : Prop where
  hN : 2 ≤ d.N
  hM : 1 ≤ d.M
  hr_pos : ∀ i, i < d.N → 0 < d.rgrid i
  hr_mono : ∀ i j, i < j → j < d.N → d.rgrid i < d.rgrid j
  ht0 : 0 ≤ d.tgrid 0
  ht_mono : ∀ i j, i < j → j < d.M → d.tgrid i < d.tgrid j
  hMstar : 0 < d.Mstar
  halpha : 0 < d.alpha
  hvfrag : 0 < d.vfrag
  hrhop : 0 < d.rhop
  hSg : ∀ i, i < d.N → 0 < d.SigmaGas i
  hSd : ∀ i, i < d.N → 0 < d.SigmaDust i
  hT : ∀ i, i < d.N → 0 < d.T i

lemma st_zero (d : Disk) (ir : ℕ) : st d 0 ir = st0 d ir := rfl

lemma massout_zero (d : Disk) (ir : ℕ) : massout d 0 ir = massout0 d ir := rfl

lemma flux_zero (d : Disk) (ir : ℕ) :
    flux d 0 ir = 2 * Real.pi * d.rgrid ir * vdrift d ir (st0 d ir) * d.SigmaDust ir := rfl

lemma massout_succ (d : Disk) (it ir : ℕ) :
    massout d (it + 1) ir =
      massout d it ir - flux d it ir * (d.tgrid (it + 1) - d.tgrid it) := rfl

lemma st_succ (d : Disk) (it ir : ℕ) :
    st d (it + 1) ir =
      max (min (min (min (stfrag d ir) (stdf d ir)) (stiniF d (it + 1) ir))
        (Z0 d ir * (massout d (it + 1) ir / massout0 d ir) / |eta d ir| / fff))
        (st0 d ir) := rfl

lemma flux_succ (d : Disk) (it ir : ℕ) :
    flux d (it + 1) ir =
      2 * Real.pi * d.rgrid ir * vv d (it + 1) ir * d.SigmaDust ir *
        (massout d (it + 1) ir / massout0 d ir) := rfl

lemma cs_pos (d : Disk) (h : ValidInput d) (ir : ℕ) (hir : ir < d.N) : 0 < cs d ir := by
  have hT := h.hT ir hir
  have hk : (0 : ℝ) < k_b := by norm_num [k_b]
  apply Real.sqrt_pos.mpr
  apply div_pos (by positivity) (by norm_num [m_p])

lemma OmegaK_pos (d : Disk) (h : ValidInput d) (ir : ℕ) (hir : ir < d.N) :
    0 < OmegaK d ir := by
  have hr := h.hr_pos ir hir
  have hMs := h.hMstar
  apply Real.sqrt_pos.mpr
  have hG : (0 : ℝ) < Grav := by norm_num [Grav]
  positivity

lemma rhog_pos (d : Disk) (h : ValidInput d) (ir : ℕ) (hir : ir < d.N) : 0 < rhog d ir := by
  have h1 := h.hSg ir hir
  have h2 := OmegaK_pos d h ir hir
  have h3 := cs_pos d h ir hir
  have h4 : (0 : ℝ) < Real.sqrt (2 * Real.pi) :=
    Real.sqrt_pos.mpr (by positivity)
  unfold rhog
  positivity

lemma st0_pos (d : Disk) (h : ValidInput d) (ir : ℕ) (hir : ir < d.N) : 0 < st0 d ir := by
  have h1 := h.hSg ir hir
  have h2 := h.hrhop
  have hpi := Real.pi_pos
  unfold st0 a0
  positivity

lemma Z0_pos (d : Disk) (h : ValidInput d) (ir : ℕ) (hir : ir < d.N) : 0 < Z0 d ir :=
  div_pos (h.hSd ir hir) (h.hSg ir hir)

lemma tgrowth_pos (d : Disk) (h : ValidInput d) (ir : ℕ) (hir : ir < d.N) :
    0 < tgrowth d ir := by
  have h1 : (0 : ℝ) < (d.alpha / 1e-4) ^ (0.3333 : ℝ) :=
    Real.rpow_pos_of_pos (by have := h.halpha; positivity) _
  have h2 := Z0_pos d h ir hir
  have h3 := OmegaK_pos d h ir hir
  have h4 : (0 : ℝ) < (d.rgrid ir / au) ^ (-(0.3333 : ℝ)) :=
    Real.rpow_pos_of_pos (by have := h.hr_pos ir hir; have : (0:ℝ) < au := by norm_num [au]
                             positivity) _
  unfold tgrowth
  positivity

lemma dr_pos (d : Disk) (h : ValidInput d) (i : ℕ) (hi : i < d.N) : 0 < dr d i := by
  have hN := h.hN
  unfold dr rInt
  rcases Nat.eq_zero_or_pos i with h0 | hpos
  · subst h0
    have h1 : (1 : ℕ) ≠ 0 := one_ne_zero
    have h2 : (1 : ℕ) ≠ d.N := by omega
    rw [if_pos rfl, if_neg h1, if_neg h2]
    have hmono := h.hr_mono 0 1 (by omega) (by omega)
    ring_nf
    nlinarith [hmono]
  · have hi1 : i ≠ 0 := by omega
    have hiN : i ≠ d.N := by omega
    rcases Nat.lt_or_ge (i + 1) d.N with hlt | hge
    · have h1 : i + 1 ≠ 0 := by omega
      have h2 : i + 1 ≠ d.N := by omega
      rw [if_neg h1, if_neg h2, if_neg hi1, if_neg hiN]
      have hmono := h.hr_mono (i - 1) (i + 1) (by omega) hlt
      have he : i + 1 - 1 = i := by omega
      rw [he]
      nlinarith [hmono]
    · have hiN1 : i + 1 = d.N := by omega
      have h1 : i + 1 ≠ 0 := by omega
      rw [if_neg h1, if_pos hiN1, if_neg hi1, if_neg hiN]
      have he1 : d.N - 1 = i := by omega
      have he2 : d.N - 2 = i - 1 := by omega
      rw [he1, he2]
      have hmono := h.hr_mono (i - 1) i (by omega) hi
      nlinarith [hmono]

lemma massout0_pos (d : Disk) (h : ValidInput d) (ir : ℕ) (hir : ir < d.N) :
    0 < massout0 d ir := by
  unfold massout0
  apply Finset.sum_pos
  · intro j hj
    have hjN : j < d.N := (Finset.mem_Ico.mp hj).2
    have h1 := h.hr_pos j hjN
    have h2 := dr_pos d h j hjN
    have h3 := h.hSd j hjN
    have hpi := Real.pi_pos
    positivity
  · exact ⟨ir, Finset.mem_Ico.mpr ⟨le_refl ir, hir⟩⟩

lemma st0_le_st (d : Disk) (it ir : ℕ) : st0 d ir ≤ st d it ir := by
  cases it with
  | zero => exact le_of_eq (st_zero d ir).symm
  | succ k => rw [st_succ]; exact le_max_right _ _

lemma st_pos (d : Disk) (h : ValidInput d) (it ir : ℕ) (hir : ir < d.N) :
    0 < st d it ir :=
  lt_of_lt_of_le (st0_pos d h ir hir) (st0_le_st d it ir)

lemma vdrift_nonneg (d : Disk) (h : ValidInput d) (ir : ℕ) (hir : ir < d.N)
    (s : ℝ) (hs : 0 ≤ s) : 0 ≤ vdrift d ir s := by
  have h1 : (0 : ℝ) ≤ |eta d ir| := abs_nonneg _
  have h2 : (0 : ℝ) ≤ OmegaK d ir := Real.sqrt_nonneg _
  have h3 := h.hr_pos ir hir
  have h4 : (0 : ℝ) < 1 + s ^ 2 := by positivity
  unfold vdrift
  positivity

lemma vdrift_le (d : Disk) (h : ValidInput d) (ir : ℕ) (hir : ir < d.N)
    (s : ℝ) (_hs : 0 ≤ s) :
    vdrift d ir s ≤ |eta d ir| * OmegaK d ir * d.rgrid ir := by
  have h1 : (0 : ℝ) ≤ |eta d ir| * OmegaK d ir * d.rgrid ir := by
    have := Real.sqrt_nonneg (Grav * d.Mstar / (d.rgrid ir) ^ 3)
    have h3 := h.hr_pos ir hir
    have h4 : (0 : ℝ) ≤ |eta d ir| := abs_nonneg _
    have h5 : (0 : ℝ) ≤ OmegaK d ir := Real.sqrt_nonneg _
    positivity
  have h4 : (0 : ℝ) < 1 + s ^ 2 := by positivity
  unfold vdrift
  rw [div_le_iff₀ h4]
  nlinarith [mul_nonneg h1 (sq_nonneg (1 - s))]

lemma vv_nonneg (d : Disk) (h : ValidInput d) (it ir : ℕ) (hir : ir < d.N) :
    0 ≤ vv d it ir := by
  have hst : 0 ≤ st d it ir := le_of_lt (st_pos d h it ir hir)
  cases it with
  | zero => exact vdrift_nonneg d h ir hir _ hst
  | succ k =>
    apply le_min (vdrift_nonneg d h ir hir _ hst)
    have h1 := h.hr_pos ir hir
    have h2 := tgrowth_pos d h ir hir
    have h3 : (0 : ℝ) < fff := by norm_num [fff]
    positivity

lemma vdrift_pos (d : Disk) (h : ValidInput d) (ir : ℕ) (hir : ir < d.N)
    (he : eta d ir ≠ 0) (s : ℝ) (hs : 0 < s) : 0 < vdrift d ir s := by
  have habs : (0 : ℝ) < |eta d ir| := abs_pos.mpr he
  have hOm := OmegaK_pos d h ir hir
  have hr := h.hr_pos ir hir
  have hden : (0 : ℝ) < 1 + s ^ 2 := by positivity
  unfold vdrift
  positivity

lemma vv_pos_of_eta_ne (d : Disk) (h : ValidInput d) (it ir : ℕ) (hir : ir < d.N)
    (he : eta d ir ≠ 0) : 0 < vv d it ir := by
  have hst : 0 < st d it ir := st_pos d h it ir hir
  cases it with
  | zero => exact vdrift_pos d h ir hir he _ hst
  | succ k =>
    apply lt_min (vdrift_pos d h ir hir he _ hst)
    have h1 := h.hr_pos ir hir
    have h2 := tgrowth_pos d h ir hir
    have h3 : (0 : ℝ) < fff := by norm_num [fff]
    positivity

lemma flux_nonneg_aux (d : Disk) (h : ValidInput d) (it ir : ℕ) (hir : ir < d.N)
    (hm : 0 ≤ massout d it ir) : 0 ≤ flux d it ir := by
  have hpi := Real.pi_pos
  have hr := h.hr_pos ir hir
  have hSd := h.hSd ir hir
  cases it with
  | zero =>
    rw [flux_zero]
    have hv := vdrift_nonneg d h ir hir _ (le_of_lt (st0_pos d h ir hir))
    positivity
  | succ k =>
    rw [flux_succ]
    have hv := vv_nonneg d h (k + 1) ir hir
    have hm0 := massout0_pos d h ir hir
    have hratio : 0 ≤ massout d (k + 1) ir / massout0 d ir := div_nonneg hm (le_of_lt hm0)
    positivity

/-- Temperature value for which the embedded sound speed is exactly one. -/
def T1 : ℝ := 2.3 * m_p / k_b

/-- A small concrete valid input: two radii at 1 cm and 4 cm, three times
0, 1e7 s and 2e7 s, a stellar mass that makes the Keplerian frequency one at
the inner radius, unit surface densities, the temperature that makes the sound
speed one, unit alpha and grain density and a small fragmentation velocity. -/
def CD : Disk :=
  ⟨2, 3, fun i => if i = 0 then 1 else 4, fun i => 1e7 * (i : ℝ), 1 / Grav,
   fun _ => 1, fun _ => 1, fun _ => T1, 1, 1e-3, 1⟩

lemma validCD : ValidInput CD := by
  refine ⟨by norm_num [CD], by norm_num [CD], ?_, ?_, by norm_num [CD], ?_, ?_,
    by norm_num [CD], by norm_num [CD], by norm_num [CD], ?_, ?_, ?_⟩
  · intro i hi
    simp only [CD]
    split <;> norm_num
  · intro i j hij hj
    have hj2 : j < 2 := hj
    interval_cases j
    · omega
    · have hi0 : i = 0 := by omega
      subst hi0
      norm_num [CD]
  · intro i j hij hj
    simp only [CD]
    have : (i : ℝ) < (j : ℝ) := Nat.cast_lt.mpr hij
    nlinarith
  · norm_num [CD, Grav]
  · exact fun i _ => by norm_num [CD]
  · exact fun i _ => by norm_num [CD]
  · intro i _
    norm_num [CD, T1, m_p, k_b]

/-- A concrete valid input with a flat pressure profile: the temperature at the
outer radius is tuned so that the gas pressure is equal at both radii, which
makes the pressure gradient parameter vanish. -/
def CD9 : Disk :=
  ⟨2, 1, fun i => if i = 0 then 1 else 4, fun i => 1e7 * (i : ℝ), 1 / Grav,
   fun _ => 1, fun _ => 1, fun i => if i = 0 then T1 else 64 * T1, 1, 1, 1⟩

lemma validCD9 : ValidInput CD9 := by
  refine ⟨by norm_num [CD9], by norm_num [CD9], ?_, ?_, by norm_num [CD9], ?_, ?_,
    by norm_num [CD9], by norm_num [CD9], by norm_num [CD9], ?_, ?_, ?_⟩
  · intro i hi
    simp only [CD9]
    split <;> norm_num
  · intro i j hij hj
    have hj2 : j < 2 := hj
    interval_cases j
    · omega
    · have hi0 : i = 0 := by omega
      subst hi0
      norm_num [CD9]
  · intro i j hij hj
    have hj1 : j < 1 := hj
    omega
  · norm_num [CD9, Grav]
  · exact fun i _ => by norm_num [CD9]
  · exact fun i _ => by norm_num [CD9]
  · intro i _
    have hT1 : (0 : ℝ) < T1 := by norm_num [T1, m_p, k_b]
    simp only [CD9]
    split <;> nlinarith

/-- A concrete invalid input: the radial grid 4, 1 is decreasing, violating the
strict monotonicity precondition; all other entries are positive. -/
def CD6 : Disk :=
  ⟨2, 1, fun i => if i = 0 then 4 else 1, fun i => 1e7 * (i : ℝ), 1 / Grav,
   fun _ => 1, fun _ => 1, fun _ => T1, 1, 1, 1⟩

lemma notValidCD6 : ¬ ValidInput CD6 := by
  intro h
  have := h.hr_mono 0 1 (by omega) (by norm_num [CD6])
  norm_num [CD6] at this

/-- The three-point radial grid 1, 2, 4 of the interface extrapolation check in
section 8 of the specification, padded with harmless remaining inputs. -/
def G124 : Disk :=
  ⟨3, 1, fun i => if i = 0 then 1 else if i = 1 then 2 else 4, fun i => (i : ℝ), 1,
   fun _ => 1, fun _ => 1, fun _ => 1, 1, 1, 1⟩

lemma sqrt2pi_pos : 0 < Real.sqrt (2 * Real.pi) :=
  Real.sqrt_pos.mpr (by positivity)

lemma cs_CD (ir : ℕ) : cs CD ir = 1 := by
  unfold cs
  rw [show k_b * CD.T ir / (2.3 * m_p) = 1 by norm_num [CD, T1, k_b, m_p]]
  exact Real.sqrt_one

lemma OmegaK_CD0 : OmegaK CD 0 = 1 := by
  unfold OmegaK
  rw [show Grav * CD.Mstar / (CD.rgrid 0) ^ 3 = 1 by norm_num [CD, Grav]]
  exact Real.sqrt_one

lemma OmegaK_CD1 : OmegaK CD 1 = 1 / 8 := by
  unfold OmegaK
  rw [show Grav * CD.Mstar / (CD.rgrid 1) ^ 3 = (1 / 8 : ℝ) ^ 2 by norm_num [CD, Grav]]
  exact Real.sqrt_sq (by norm_num)

lemma rhog_CD0 : rhog CD 0 = 1 / Real.sqrt (2 * Real.pi) := by
  unfold rhog
  rw [cs_CD, OmegaK_CD0]
  norm_num [CD]

lemma pg_CD0 : pg CD 0 = 1 / Real.sqrt (2 * Real.pi) := by
  unfold pg
  rw [cs_CD, rhog_CD0]
  ring

lemma pg_CD1 : pg CD 1 = (1 / 8) / Real.sqrt (2 * Real.pi) := by
  unfold pg rhog
  rw [cs_CD, OmegaK_CD1]
  norm_num [CD]

lemma rInt_CD0 : rInt CD 0 = -(1 / 2) := by norm_num [rInt, CD]

lemma rInt_CD1 : rInt CD 1 = 5 / 2 := by norm_num [rInt, CD]

lemma rInt_CD2 : rInt CD 2 = 11 / 2 := by norm_num [rInt, CD]

lemma dr_CD0 : dr CD 0 = 3 := by
  unfold dr
  rw [rInt_CD1, rInt_CD0]
  norm_num

lemma dr_CD1 : dr CD 1 = 3 := by
  unfold dr
  rw [rInt_CD2, rInt_CD1]
  norm_num

lemma pgInt_CD0 : pgInt CD 0 = pg CD 0 := by
  have hx : rInt CD 0 ≤ CD.rgrid 0 := by rw [rInt_CD0]; norm_num [CD]
  unfold pgInt interp
  rw [if_pos hx]

lemma pgInt_CD1 : pgInt CD 1 = (pg CD 0 + pg CD 1) / 2 := by
  have h1 : ¬ (rInt CD 1 ≤ CD.rgrid 0) := by rw [rInt_CD1]; norm_num [CD]
  have h2 : ¬ (CD.rgrid (CD.N - 1) ≤ rInt CD 1) := by rw [rInt_CD1]; norm_num [CD]
  unfold pgInt interp
  rw [if_neg h1, if_neg h2]
  show pg CD (segIdx CD.rgrid (rInt CD 1) 0) +
      (pg CD (segIdx CD.rgrid (rInt CD 1) 0 + 1) - pg CD (segIdx CD.rgrid (rInt CD 1) 0)) *
        (rInt CD 1 - CD.rgrid (segIdx CD.rgrid (rInt CD 1) 0)) /
        (CD.rgrid (segIdx CD.rgrid (rInt CD 1) 0 + 1) -
          CD.rgrid (segIdx CD.rgrid (rInt CD 1) 0)) = _
  rw [show segIdx CD.rgrid (rInt CD 1) 0 = 0 from rfl, rInt_CD1]
  rw [show CD.rgrid (0 + 1) = 4 by norm_num [CD], show CD.rgrid 0 = 1 by norm_num [CD]]
  have h01 : (0 : ℕ) + 1 = 1 := rfl
  rw [h01]
  ring

lemma pgInt_CD2 : pgInt CD 2 = pg CD 1 := by
  have h1 : ¬ (rInt CD 2 ≤ CD.rgrid 0) := by rw [rInt_CD2]; norm_num [CD]
  have h2 : CD.rgrid (CD.N - 1) ≤ rInt CD 2 := by rw [rInt_CD2]; norm_num [CD]
  unfold pgInt interp
  rw [if_neg h1, if_pos h2]
  rfl

lemma eta_CD0 : eta CD 0 = -(7 / 96) := by
  have hS : Real.sqrt (2 * Real.pi) ≠ 0 := ne_of_gt sqrt2pi_pos
  unfold eta
  rw [show (0 : ℕ) + 1 = 1 from rfl, pgInt_CD1, pgInt_CD0, pg_CD0, pg_CD1, dr_CD0,
    rhog_CD0, OmegaK_CD0, show CD.rgrid 0 = 1 by norm_num [CD]]
  field_simp
  ring

lemma abs_eta_CD0 : |eta CD 0| = 7 / 96 := by
  rw [eta_CD0]
  norm_num

lemma st0_CD0 : st0 CD 0 = 0.5 * Real.pi * 1e-4 := by
  unfold st0 a0
  norm_num [CD]

lemma st0_CD0_lb : 1.5e-4 < st0 CD 0 := by
  rw [st0_CD0]
  nlinarith [Real.pi_gt_three]

lemma st0_CD0_ub : st0 CD 0 < 1 := by
  rw [st0_CD0]
  nlinarith [Real.pi_lt_d2]

lemma massout0_CD0 : massout0 CD 0 = 30 * Real.pi := by
  unfold massout0
  rw [show Finset.Ico 0 CD.N = {0, 1} by decide]
  rw [Finset.sum_insert (by decide), Finset.sum_singleton]
  rw [dr_CD0, dr_CD1]
  norm_num [CD]
  ring

lemma massout_CD1_neg : massout CD 1 0 < 0 := by
  rw [massout_succ, massout_zero, flux_zero]
  rw [massout0_CD0]
  unfold vdrift
  rw [abs_eta_CD0, OmegaK_CD0]
  rw [show CD.rgrid 0 = 1 by norm_num [CD], show CD.SigmaDust 0 = 1 by norm_num [CD],
    show CD.tgrid 1 - CD.tgrid 0 = 1e7 by norm_num [CD]]
  set s : ℝ := st0 CD 0 with hsdef
  have hs1 : 1.5e-4 < s := st0_CD0_lb
  have hs2 : s < 1 := st0_CD0_ub
  have hden : (0 : ℝ) < 1 + s ^ 2 := by positivity
  have hq : 7.5e-5 ≤ s / (1 + s ^ 2) := by
    rw [le_div_iff₀ hden]
    nlinarith
  have hrw : 2 * (7 / 96 : ℝ) * 1 * 1 * s / (1 + s ^ 2) = (7 / 48) * (s / (1 + s ^ 2)) := by
    ring
  rw [hrw]
  have hpi := Real.pi_pos
  nlinarith [mul_le_mul_of_nonneg_left hq (le_of_lt hpi)]

lemma eta_CD0_ne : eta CD 0 ≠ 0 := by
  rw [eta_CD0]
  norm_num

lemma flux_CD1_neg : flux CD 1 0 < 0 := by
  rw [flux_succ]
  have hvv : 0 < vv CD 1 0 := vv_pos_of_eta_ne CD validCD 1 0 (by norm_num [CD]) eta_CD0_ne
  have hratio : massout CD 1 0 / massout0 CD 0 < 0 :=
    div_neg_of_neg_of_pos massout_CD1_neg (massout0_pos CD validCD 0 (by norm_num [CD]))
  have hpos : 0 < 2 * Real.pi * CD.rgrid 0 * vv CD 1 0 * CD.SigmaDust 0 := by
    have hpi := Real.pi_pos
    rw [show CD.rgrid 0 = 1 by norm_num [CD], show CD.SigmaDust 0 = 1 by norm_num [CD]]
    positivity
  exact mul_neg_of_pos_of_neg hpos hratio

lemma massout_CD_incr : massout CD 1 0 < massout CD 2 0 := by
  have h2 : massout CD 2 0 = massout CD 1 0 - flux CD 1 0 * (CD.tgrid 2 - CD.tgrid 1) :=
    massout_succ CD 1 0
  rw [h2, show CD.tgrid 2 - CD.tgrid 1 = 1e7 by norm_num [CD]]
  nlinarith [flux_CD1_neg]

lemma stfrag_CD0_lt : stfrag CD 0 < st0 CD 0 := by
  have h : stfrag CD 0 = 0.37 * (1e-3 : ℝ) ^ 2 / 3 := by
    unfold stfrag
    rw [cs_CD]
    norm_num [CD]
  rw [h]
  nlinarith [st0_CD0_lb]

lemma cs_CD9_0 : cs CD9 0 = 1 := by
  unfold cs
  rw [show k_b * CD9.T 0 / (2.3 * m_p) = 1 by norm_num [CD9, T1, k_b, m_p]]
  exact Real.sqrt_one

lemma cs_CD9_1 : cs CD9 1 = 8 := by
  unfold cs
  rw [show k_b * CD9.T 1 / (2.3 * m_p) = (8 : ℝ) ^ 2 by norm_num [CD9, T1, k_b, m_p]]
  exact Real.sqrt_sq (by norm_num)

lemma OmegaK_CD9_0 : OmegaK CD9 0 = 1 := by
  unfold OmegaK
  rw [show Grav * CD9.Mstar / (CD9.rgrid 0) ^ 3 = 1 by norm_num [CD9, Grav]]
  exact Real.sqrt_one

lemma OmegaK_CD9_1 : OmegaK CD9 1 = 1 / 8 := by
  unfold OmegaK
  rw [show Grav * CD9.Mstar / (CD9.rgrid 1) ^ 3 = (1 / 8 : ℝ) ^ 2 by norm_num [CD9, Grav]]
  exact Real.sqrt_sq (by norm_num)

lemma pg_CD9_0 : pg CD9 0 = 1 / Real.sqrt (2 * Real.pi) := by
  unfold pg rhog
  rw [cs_CD9_0, OmegaK_CD9_0]
  norm_num [CD9]

lemma pg_CD9_1 : pg CD9 1 = 1 / Real.sqrt (2 * Real.pi) := by
  have hS : Real.sqrt (2 * Real.pi) ≠ 0 := ne_of_gt sqrt2pi_pos
  unfold pg rhog
  rw [cs_CD9_1, OmegaK_CD9_1]
  rw [show CD9.SigmaGas 1 = 1 by norm_num [CD9]]
  field_simp
  ring

lemma rInt_CD9_0 : rInt CD9 0 = -(1 / 2) := by norm_num [rInt, CD9]

lemma rInt_CD9_1 : rInt CD9 1 = 5 / 2 := by norm_num [rInt, CD9]

lemma pgInt_CD9_0 : pgInt CD9 0 = pg CD9 0 := by
  have hx : rInt CD9 0 ≤ CD9.rgrid 0 := by rw [rInt_CD9_0]; norm_num [CD9]
  unfold pgInt interp
  rw [if_pos hx]

lemma pgInt_CD9_1 : pgInt CD9 1 = (pg CD9 0 + pg CD9 1) / 2 := by
  have h1 : ¬ (rInt CD9 1 ≤ CD9.rgrid 0) := by rw [rInt_CD9_1]; norm_num [CD9]
  have h2 : ¬ (CD9.rgrid (CD9.N - 1) ≤ rInt CD9 1) := by rw [rInt_CD9_1]; norm_num [CD9]
  unfold pgInt interp
  rw [if_neg h1, if_neg h2]
  show pg CD9 (segIdx CD9.rgrid (rInt CD9 1) 0) +
      (pg CD9 (segIdx CD9.rgrid (rInt CD9 1) 0 + 1) - pg CD9 (segIdx CD9.rgrid (rInt CD9 1) 0)) *
        (rInt CD9 1 - CD9.rgrid (segIdx CD9.rgrid (rInt CD9 1) 0)) /
        (CD9.rgrid (segIdx CD9.rgrid (rInt CD9 1) 0 + 1) -
          CD9.rgrid (segIdx CD9.rgrid (rInt CD9 1) 0)) = _
  rw [show segIdx CD9.rgrid (rInt CD9 1) 0 = 0 from rfl, rInt_CD9_1]
  rw [show CD9.rgrid (0 + 1) = 4 by norm_num [CD9], show CD9.rgrid 0 = 1 by norm_num [CD9]]
  have h01 : (0 : ℕ) + 1 = 1 := rfl
  rw [h01]
  ring

lemma eta_CD9_0 : eta CD9 0 = 0 := by
  unfold eta
  rw [show (0 : ℕ) + 1 = 1 from rfl, pgInt_CD9_1, pgInt_CD9_0, pg_CD9_0, pg_CD9_1]
  rw [show ((1 / Real.sqrt (2 * Real.pi) + 1 / Real.sqrt (2 * Real.pi)) / 2 -
      1 / Real.sqrt (2 * Real.pi)) = 0 by ring]
  simp

/-- C1: for every time index it in 1..M-1 and every radius index ir, the stored
Stokes number equals the clamp chain in this exact order: min of the
fragmentation-turbulence limit, the fragmentation-drift limit and the growth
value st0 times exp of the absolute grid time over the growth timescale, then
min with the drift-supply limit Z over the absolute eta over 30, then max with
the monomer Stokes number. -/
theorem C1_stokes_clamp_chain (d : Disk) (it ir : ℕ) (h1 : 1 ≤ it) (h2 : it < d.M)
    (_h3 : ir < d.N) :
    st d it ir =
      max (min (min (min (stfrag d ir) (stdf d ir))
          (st0 d ir * Real.exp (d.tgrid it / tgrowth d ir)))
        (Z0 d ir * (massout d it ir / massout0 d ir) / |eta d ir| / fff)) (st0 d ir) := by
  obtain ⟨k, rfl⟩ : ∃ k, it = k + 1 := ⟨it - 1, by omega⟩
  exact st_succ d k ir

/-- Witness for C1 at the concrete valid input CD, time index 1, radius 0. -/
theorem C1_stokes_clamp_chain_w :
    1 ≤ 1 ∧ 1 < CD.M ∧ 0 < CD.N ∧
      st CD 1 0 =
        max (min (min (min (stfrag CD 0) (stdf CD 0))
            (st0 CD 0 * Real.exp (CD.tgrid 1 / tgrowth CD 0)))
          (Z0 CD 0 * (massout CD 1 0 / massout0 CD 0) / |eta CD 0| / fff)) (st0 CD 0) :=
  ⟨le_refl 1, by norm_num [CD], by norm_num [CD],
    C1_stokes_clamp_chain CD 1 0 (le_refl 1) (by norm_num [CD]) (by norm_num [CD])⟩

/-- C2: for every valid input, every time index (including 0) and every radius,
the stored Stokes number is at least the monomer Stokes number. -/
theorem C2_monomer_floor (d : Disk) (_h : ValidInput d) (it ir : ℕ) (_h2 : it < d.M)
    (_h3 : ir < d.N) : st0 d ir ≤ st d it ir :=
  st0_le_st d it ir

/-- Witness for C2 at the concrete valid input CD, time index 0, radius 0. -/
theorem C2_monomer_floor_w : ValidInput CD ∧ 0 < CD.M ∧ 0 < CD.N ∧ st0 CD 0 ≤ st CD 0 0 :=
  ⟨validCD, by norm_num [CD], by norm_num [CD],
    C2_monomer_floor CD validCD 0 0 (by norm_num [CD]) (by norm_num [CD])⟩

/-- Counterexample to C3: at the concrete valid input CD (whose fragmentation
velocity is small enough that the fragmentation-turbulence limit lies below the
monomer Stokes number) the stored Stokes number at time index 1, radius 0 is
strictly above the three-way ceiling minimum, because the monomer floor clamp
is applied after the ceiling clamp. -/
theorem C3_regime_ceiling_cex :
    ValidInput CD ∧ 1 < CD.M ∧ 0 < CD.N ∧
      min (min (stfrag CD 0) (stdf CD 0))
        (st0 CD 0 * Real.exp (CD.tgrid 1 / tgrowth CD 0)) < st CD 1 0 := by
  refine ⟨validCD, by norm_num [CD], by norm_num [CD], ?_⟩
  calc min (min (stfrag CD 0) (stdf CD 0))
        (st0 CD 0 * Real.exp (CD.tgrid 1 / tgrowth CD 0))
      ≤ stfrag CD 0 := le_trans (min_le_left _ _) (min_le_left _ _)
    _ < st0 CD 0 := stfrag_CD0_lt
    _ ≤ st CD 1 0 := st0_le_st CD 1 0

/-- C3 amended: for every valid input, time index it at least 1 and radius ir,
the stored Stokes number is at most the max of the three-way ceiling minimum
and the monomer Stokes number: the monomer floor can lift the stored value
above the ceiling exactly when the monomer value exceeds the ceiling. -/
theorem C3_regime_ceiling_amended (d : Disk) (_h : ValidInput d) (it ir : ℕ)
    (h1 : 1 ≤ it) (h2 : it < d.M) (_h3 : ir < d.N) :
    st d it ir ≤
      max (min (min (stfrag d ir) (stdf d ir))
        (st0 d ir * Real.exp (d.tgrid it / tgrowth d ir))) (st0 d ir) := by
  obtain ⟨k, rfl⟩ : ∃ k, it = k + 1 := ⟨it - 1, by omega⟩
  rw [st_succ]
  exact max_le_max (min_le_left _ _) (le_refl _)

/-- Witness for the amended C3 at the concrete valid input CD. -/
theorem C3_regime_ceiling_amended_w :
    ValidInput CD ∧ 1 ≤ 1 ∧ 1 < CD.M ∧ 0 < CD.N ∧
      st CD 1 0 ≤
        max (min (min (stfrag CD 0) (stdf CD 0))
          (st0 CD 0 * Real.exp (CD.tgrid 1 / tgrowth CD 0))) (st0 CD 0) :=
  ⟨validCD, le_refl 1, by norm_num [CD], by norm_num [CD],
    C3_regime_ceiling_amended CD validCD 1 0 (le_refl 1) (by norm_num [CD])
      (by norm_num [CD])⟩

/-- Counterexample to C4: at the concrete valid input CD the huge first time
step overdraws the mass budget, making the flux at time index 1 negative and
the mass budget sequence strictly increasing from time index 1 to 2. -/
theorem C4_mass_depletion_cex :
    ValidInput CD ∧ 2 < CD.M ∧ 0 < CD.N ∧ massout CD 1 0 < massout CD 2 0 :=
  ⟨validCD, by norm_num [CD], by norm_num [CD], massout_CD_incr⟩

/-- C4 amended: the mass budget decreases at a step whenever the budget at the
previous time index is still non-negative; once the explicit Euler update
overshoots to a negative budget, the flux changes sign and the sequence can
increase. -/
theorem C4_mass_depletion_amended (d : Disk) (h : ValidInput d) (it ir : ℕ)
    (h2 : it + 1 < d.M) (h3 : ir < d.N) (hm : 0 ≤ massout d it ir) :
    massout d (it + 1) ir ≤ massout d it ir := by
  rw [massout_succ]
  have hflux := flux_nonneg_aux d h it ir h3 hm
  have hdt : 0 ≤ d.tgrid (it + 1) - d.tgrid it := by
    have := h.ht_mono it (it + 1) (by omega) h2
    linarith
  nlinarith [mul_nonneg hflux hdt]

/-- Witness for the amended C4 at the concrete valid input CD, first step. -/
theorem C4_mass_depletion_amended_w :
    ValidInput CD ∧ 0 + 1 < CD.M ∧ 0 < CD.N ∧ 0 ≤ massout CD 0 0 ∧
      massout CD (0 + 1) 0 ≤ massout CD 0 0 := by
  have hm : 0 ≤ massout CD 0 0 := by
    rw [massout_zero, massout0_CD0]
    positivity
  exact ⟨validCD, by norm_num [CD], by norm_num [CD], hm,
    C4_mass_depletion_amended CD validCD 0 0 (by norm_num [CD]) (by norm_num [CD]) hm⟩

/-- Counterexample to C5: at the concrete valid input CD the flux at time
index 1, radius 0 is strictly negative, because the mass budget has been
overdrawn and the flux is scaled by the now negative remaining mass
fraction. -/
theorem C5_flux_sign_cex :
    ValidInput CD ∧ 1 < CD.M ∧ 0 < CD.N ∧ flux CD 1 0 < 0 :=
  ⟨validCD, by norm_num [CD], by norm_num [CD], flux_CD1_neg⟩

/-- C5 amended: every flux entry is non-negative provided the mass budget entry
at the same time and radius is non-negative; the budget can go negative after
an overdrawing Euler step, and then the flux is negative as well. -/
theorem C5_flux_sign_amended (d : Disk) (h : ValidInput d) (it ir : ℕ)
    (_h2 : it < d.M) (h3 : ir < d.N) (hm : 0 ≤ massout d it ir) :
    0 ≤ flux d it ir :=
  flux_nonneg_aux d h it ir h3 hm

/-- Witness for the amended C5 at the concrete valid input CD, time index 0. -/
theorem C5_flux_sign_amended_w :
    ValidInput CD ∧ 0 < CD.M ∧ 0 < CD.N ∧ 0 ≤ massout CD 0 0 ∧ 0 ≤ flux CD 0 0 := by
  have hm : 0 ≤ massout CD 0 0 := by
    rw [massout_zero, massout0_CD0]
    positivity
  exact ⟨validCD, by norm_num [CD], by norm_num [CD], hm,
    C5_flux_sign_amended CD validCD 0 0 (by norm_num [CD]) (by norm_num [CD]) hm⟩

/-- Trace for C6: the embedded function performs no boundary validation at all.
At the concrete input CD6, whose radial grid 4, 1 is not strictly increasing,
the computation still proceeds normally and returns the monomer formula at the
initial row instead of failing fast with an invalid-input error. -/
theorem C6_no_validation_trace :
    ¬ ValidInput CD6 ∧ st CD6 0 0 = 0.5 * Real.pi * a0 * CD6.rhop / CD6.SigmaGas 0 :=
  ⟨notValidCD6, rfl⟩

/-- C7: for every valid input, row 0 of the Stokes number field is exactly the
monomer Stokes number and row 0 of the mass budget is the reverse cumulative
sum of the cell masses outward of each radius. -/
theorem C7_initial_condition (d : Disk) (_h : ValidInput d) (ir : ℕ) (_h3 : ir < d.N) :
    st d 0 ir = 0.5 * Real.pi * a0 * d.rhop / d.SigmaGas ir ∧
      massout d 0 ir =
        ∑ j in Finset.Ico ir d.N, 2 * Real.pi * d.rgrid j * dr d j * d.SigmaDust j :=
  ⟨rfl, rfl⟩

/-- Witness for C7 at the concrete valid input CD, radius 0. -/
theorem C7_initial_condition_w :
    ValidInput CD ∧ 0 < CD.N ∧
      (st CD 0 0 = 0.5 * Real.pi * a0 * CD.rhop / CD.SigmaGas 0 ∧
        massout CD 0 0 =
          ∑ j in Finset.Ico 0 CD.N, 2 * Real.pi * CD.rgrid j * dr CD j * CD.SigmaDust j) :=
  ⟨validCD, by norm_num [CD], C7_initial_condition CD validCD 0 (by norm_num [CD])⟩

/-- C8: for every radial grid of length at least 2, the inner interface is
1.5 r0 - 0.5 r1, the outer interface is the symmetric extrapolation at the
outer edge, interior interfaces are midpoints of adjacent radii, and on the
grid 1, 2, 4 the four interfaces are 0.5, 1.5, 3 and 5. -/
theorem C8_interfaces :
    (∀ d : Disk, 2 ≤ d.N →
        rInt d 0 = 1.5 * d.rgrid 0 - 0.5 * d.rgrid 1 ∧
        rInt d d.N = 1.5 * d.rgrid (d.N - 1) - 0.5 * d.rgrid (d.N - 2) ∧
        (∀ i, 1 ≤ i → i < d.N → rInt d i = 0.5 * (d.rgrid i + d.rgrid (i - 1)))) ∧
      rInt G124 0 = 0.5 ∧ rInt G124 1 = 1.5 ∧ rInt G124 2 = 3 ∧ rInt G124 3 = 5 := by
  constructor
  · intro d hN
    refine ⟨?_, ?_, ?_⟩
    · unfold rInt
      rw [if_pos rfl]
    · unfold rInt
      rw [if_neg (by omega), if_pos rfl]
    · intro i hi1 hiN
      unfold rInt
      rw [if_neg (by omega), if_neg (by omega)]
  · refine ⟨?_, ?_, ?_, ?_⟩ <;> norm_num [rInt, G124]

/-- Witness for C8: the general interior-midpoint clause applied to the
concrete grid 1, 2, 4 at interface index 1. -/
theorem C8_interfaces_w : rInt G124 1 = 0.5 * (G124.rgrid 1 + G124.rgrid 0) :=
  (C8_interfaces.1 G124 (by norm_num [G124])).2.2 1 (le_refl 1) (by norm_num [G124])

/-- Counterexample to C9: at the concrete valid input CD9 the temperature
profile makes the gas pressure flat, so the pressure gradient parameter eta
vanishes at radius 0 and the divisions by the absolute eta in the
fragmentation-drift and drift-supply limits are divisions by zero. -/
theorem C9_eta_nonzero_cex : ValidInput CD9 ∧ 0 < CD9.N ∧ |eta CD9 0| = 0 :=
  ⟨validCD9, by norm_num [CD9], by rw [eta_CD9_0]; norm_num⟩

/-- C9 amended: under the stated preconditions every divisor other than the
absolute eta is nonzero: the sound speed, the gas surface density, the cell
width, the midplane density, the orbital frequency, the radius, the initial
mass budget, the growth timescale and one plus the squared Stokes number. -/
theorem C9_divisors_amended (d : Disk) (h : ValidInput d) (it ir : ℕ)
    (_h2 : it < d.M) (h3 : ir < d.N) :
    cs d ir ≠ 0 ∧ d.SigmaGas ir ≠ 0 ∧ dr d ir ≠ 0 ∧ rhog d ir ≠ 0 ∧
      OmegaK d ir ≠ 0 ∧ d.rgrid ir ≠ 0 ∧ massout0 d ir ≠ 0 ∧ tgrowth d ir ≠ 0 ∧
      1 + (st d it ir) ^ 2 ≠ 0 :=
  ⟨ne_of_gt (cs_pos d h ir h3), ne_of_gt (h.hSg ir h3), ne_of_gt (dr_pos d h ir h3),
    ne_of_gt (rhog_pos d h ir h3), ne_of_gt (OmegaK_pos d h ir h3),
    ne_of_gt (h.hr_pos ir h3), ne_of_gt (massout0_pos d h ir h3),
    ne_of_gt (tgrowth_pos d h ir h3), ne_of_gt (by positivity)⟩

/-- Witness for the amended C9 at the concrete valid input CD. -/
theorem C9_divisors_amended_w :
    ValidInput CD ∧ 0 < CD.M ∧ 0 < CD.N ∧
      (cs CD 0 ≠ 0 ∧ CD.SigmaGas 0 ≠ 0 ∧ dr CD 0 ≠ 0 ∧ rhog CD 0 ≠ 0 ∧
        OmegaK CD 0 ≠ 0 ∧ CD.rgrid 0 ≠ 0 ∧ massout0 CD 0 ≠ 0 ∧ tgrowth CD 0 ≠ 0 ∧
        1 + (st CD 0 0) ^ 2 ≠ 0) :=
  ⟨validCD, by norm_num [CD], by norm_num [CD],
    C9_divisors_amended CD validCD 0 0 (by norm_num [CD]) (by norm_num [CD])⟩

/-- C10: the drift velocity law evaluated at any non-negative Stokes number is
at most the headwind speed scale given by the absolute eta times the orbital
frequency times the radius, and the velocity actually used at every time and
radius, capped by the growth-supply limit at later rows, obeys the same
bound. -/
theorem C10_velocity_bound (d : Disk) (h : ValidInput d) (it ir : ℕ)
    (_h2 : it < d.M) (h3 : ir < d.N) :
    (∀ s, 0 ≤ s → vdrift d ir s ≤ |eta d ir| * OmegaK d ir * d.rgrid ir) ∧
      vv d it ir ≤ |eta d ir| * OmegaK d ir * d.rgrid ir := by
  have hb : ∀ s, 0 ≤ s → vdrift d ir s ≤ |eta d ir| * OmegaK d ir * d.rgrid ir :=
    fun s hs => vdrift_le d h ir h3 s hs
  refine ⟨hb, ?_⟩
  cases it with
  | zero => exact hb _ (le_of_lt (st_pos d h 0 ir h3))
  | succ k =>
    exact le_trans (min_le_left _ _) (hb _ (le_of_lt (st_pos d h (k + 1) ir h3)))

/-- Witness for C10 at the concrete valid input CD, time index 0, radius 0. -/
theorem C10_velocity_bound_w :
    ValidInput CD ∧ 0 < CD.M ∧ 0 < CD.N ∧
      ((∀ s, 0 ≤ s → vdrift CD 0 s ≤ |eta CD 0| * OmegaK CD 0 * CD.rgrid 0) ∧
        vv CD 0 0 ≤ |eta CD 0| * OmegaK CD 0 * CD.rgrid 0) :=
  ⟨validCD, by norm_num [CD], by norm_num [CD],
    C10_velocity_bound CD validCD 0 0 (by norm_num [CD]) (by norm_num [CD])⟩

end PP
